import Mathlib

/-!
Verification development for the telegram-bot-opencv repository.

The development shallowly embeds the program's data model and its two core
operations — `processUpdate` (the command dispatcher) and
`processExecuteRequest` (the script-running worker) — together with the
session registry built at initialization, the bounded execution channel,
and the exclusive execution lock, and proves the behavioural properties
stated about them.

File reads (the script file), script invocations, and remote sends are
external effects; they are represented by explicit parameters
(`Except`-valued file contents, a `ScriptResult`, success flags for each
send attempt) and the worker's effects are recorded as an event trace.
-/

/-- Status type (source: `type Status int16` with the single constant
`StatusWaiting`). -/
inductive Status where
  | waiting
  deriving DecidableEq

/-- Command string `/start` (source constant `commandStart`). -/
def commandStart : String := "/start"

/-- Command string `/execute` (source constant `commandExecute`). -/
def commandExecute : String := "/execute"

/-- Command string `/showcode` (source constant `commandShowCode`). -/
def commandShowCode : String := "/showcode"

/-- Default prompt (source constant `messageDefault`). -/
def messageDefault : String := "Input your command:"

/-- Unknown-command message (source constant `messageUnknownCommand`). -/
def messageUnknownCommand : String := "Unknown command."

/-- Queue capacity (source constant `numQueue = 4`). -/
def numQueue : Nat := 4

/-- Session struct (source: `type Session struct { UserID string; CurrentStatus Status }`). -/
structure Session where
  userID : String
  currentStatus : Status
  deriving DecidableEq

/-- Reply keyboard markup as built by the dispatcher (source: `bot.ReplyKeyboardMarkup`
with fields `Keyboard` and `ResizeKeyboard`); a keyboard is rows of button labels. -/
structure ReplyKeyboardMarkup where
  keyboard : List (List String)
  resizeKeyboard : Bool
  deriving DecidableEq

/-- Message options bundle (source: the `options` map holding the `reply_markup` entry). -/
structure MessageOptions where
  replyMarkup : ReplyKeyboardMarkup
  deriving DecidableEq

/-- Keyboard rows (source variable `allKeyboards`: one row per command button). -/
def allKeyboards : List (List String) := [[commandExecute], [commandShowCode]]

/-- The options value the dispatcher builds for every update (source: the
`options` map literal in `processUpdate`). -/
def stdMessageOptions : MessageOptions := ⟨⟨allKeyboards, true⟩⟩

/-- ExecuteRequest struct (source: `type ExecuteRequest struct { ChatID interface{};
MessageOptions map[string]interface{} }`); the chat id is the numeric chat handle. -/
structure ExecuteRequest where
  chatID : Int
  messageOptions : MessageOptions
  deriving DecidableEq

/-- Outcome of dispatching one update, per the spec's DispatchOutcome:
an immediate reply (with its options bundle), a push onto the execution
channel, or a silent drop. -/
inductive DispatchOutcome where
  | replyWith (message : String) (options : MessageOptions)
  | enqueue (request : ExecuteRequest)
  | drop
  deriving DecidableEq

/-- Sender of a message (source: `update.Message.From` with `Username` an
optional string and `FirstName` a string). -/
structure User where
  username : Option String
  firstName : String
  deriving DecidableEq

/-- Chat a message arrived in (source: `update.Message.Chat.ID`). -/
structure Chat where
  id : Int
  deriving DecidableEq

/-- Inbound message (source: `update.Message`; `text` is `none` for a
non-text message, mirroring `HasText()`). -/
structure Message where
  fromUser : User
  text : Option String
  chat : Chat
  deriving DecidableEq

/-- Inbound update; `processUpdate` is only invoked when `update.Message`
is non-nil, so the message is carried directly. -/
structure Update where
  message : Message
  deriving DecidableEq

/-- Translation of Go `strings.HasPrefix s pre` via the strings' character
sequences. -/
def hasPrefix (s pre : String) : Bool :=
  pre.data.isPrefixOf s.data

/-- Allow-list membership scan (source `isAvailableID`: linear scan with
early return on exact match). -/
def isAvailableID (allowed : List String) (id : String) : Bool :=
  match allowed with
  | [] => false
  | v :: rest => if v = id then true else isAvailableID rest id

/-- Go map insertion (overwrite on key collision), used to model the
`sessions` map built in `init`. -/
def mapInsert : List (String × Session) → String → Session → List (String × Session)
  | [], k, v => [(k, v)]
  | (k2, v2) :: rest, k, v =>
      if k2 = k then (k, v) :: rest else (k2, v2) :: mapInsert rest k v

/-- Go map lookup on the session map (source: `pool.Sessions[userID]`). -/
def lookupSession : List (String × Session) → String → Option Session
  | [], _ => none
  | (k2, v) :: rest, k => if k2 = k then some v else lookupSession rest k

/-- Session-map construction at startup (source `init`: one `Session` with
status `StatusWaiting` per allowed id). -/
def initSessions (allowed : List String) : List (String × Session) :=
  allowed.foldl (fun m v => mapInsert m v ⟨v, Status.waiting⟩) []

/-- Script-file read result (source `readCode` reads `scriptPath`): either
the file's contents or the read error's message. -/
def readCode (scriptFile : Except String String) : String :=
  match scriptFile with
  | .ok contents => contents
  | .error err => "Error: " ++ err

/-- Effective text of an update (source: `*update.Message.Text` when
`HasText()`, `""` otherwise). -/
def effectiveText (update : Update) : String :=
  match update.message.text with
  | some t => t
  | none => ""

/-- Dispatch decision of `processUpdate` (src/unnamed/part_000, the
authoritative copy): allow-list check, session lookup, then the prefix
switch on the text; a non-empty computed message is replied, an empty
one enqueues an `ExecuteRequest`. -/
def processUpdate (allowed : List String) (pool : List (String × Session))
    (scriptFile : Except String String) (update : Update) : DispatchOutcome :=
  match update.message.fromUser.username with
  | none => DispatchOutcome.drop
  | some userID =>
    if isAvailableID allowed userID then
      match lookupSession pool userID with
      | none => DispatchOutcome.drop
      | some session =>
        let txt := effectiveText update
        let message :=
          match session.currentStatus with
          | Status.waiting =>
            if hasPrefix txt commandStart then messageDefault
            else if hasPrefix txt commandExecute then ""
            else if hasPrefix txt commandShowCode then readCode scriptFile
            else if txt.length > 0 then txt ++ ": " ++ messageUnknownCommand
            else messageUnknownCommand
        if message.length > 0 then DispatchOutcome.replyWith message stdMessageOptions
        else DispatchOutcome.enqueue ⟨update.message.chat.id, stdMessageOptions⟩
    else DispatchOutcome.drop

/-- Dispatch decision of the legacy copy (src/main.go): identical to
`processUpdate` except that the fallback branch formats
`"<txt>: Unknown command."` unconditionally, without the empty-text case. -/
def processUpdateLegacy (allowed : List String) (pool : List (String × Session))
    (scriptFile : Except String String) (update : Update) : DispatchOutcome :=
  match update.message.fromUser.username with
  | none => DispatchOutcome.drop
  | some userID =>
    if isAvailableID allowed userID then
      match lookupSession pool userID with
      | none => DispatchOutcome.drop
      | some session =>
        let txt := effectiveText update
        let message :=
          match session.currentStatus with
          | Status.waiting =>
            if hasPrefix txt commandStart then messageDefault
            else if hasPrefix txt commandExecute then ""
            else if hasPrefix txt commandShowCode then readCode scriptFile
            else txt ++ ": " ++ messageUnknownCommand
        if message.length > 0 then DispatchOutcome.replyWith message stdMessageOptions
        else DispatchOutcome.enqueue ⟨update.message.chat.id, stdMessageOptions⟩
    else DispatchOutcome.drop

/-- Observable events of one run of the worker `processExecuteRequest`,
in program order: lock operations, chat-action signals, the script
invocation, and each send attempt with its success flag. -/
inductive Event where
  | lockAcquire
  | lockRelease
  | chatAction (chatID : Int) (action : String)
  | runScript
  | sendMessageAttempt (chatID : Int) (message : String) (ok : Bool)
  | sendPhotoAttempt (chatID : Int) (ok : Bool)
  | sendVideoAttempt (chatID : Int) (ok : Bool)
  deriving DecidableEq

/-- Result of `exec.Command(scriptPath).CombinedOutput()`: on failure both
the error and the combined output bytes are available. -/
inductive ScriptResult where
  | ok (output : List Nat)
  | error (err : String) (output : List Nat)
  deriving DecidableEq

/-- Go `string(bytes)` conversion of captured output bytes, modelled as the
characters of the byte values. -/
def bytesToText (bs : List Nat) : String :=
  String.mk (bs.map Char.ofNat)

/-- Worker body (source `processExecuteRequest`): acquire the execute lock
(released by `defer` on every exit path, hence last in the trace), signal
typing, run the script, then: on invocation error send one error text; on
success branch on the sniffed MIME type of the output bytes into
photo-send, video-send or text-send, each attachment send falling back to
one text message on failure. `detect` is the content sniffer, `sendOk n`
the success of the n-th send attempt, `desc n` the platform's description
of the n-th failed send. Returns the event trace and the result flag. -/
def processExecuteRequest (detect : List Nat → String) (sendOk : Nat → Bool)
    (desc : Nat → String) (scriptResult : ScriptResult) (request : ExecuteRequest) :
    List Event × Bool :=
  let cid := request.chatID
  match scriptResult with
  | ScriptResult.error err output =>
      let message := "Error running script: " ++ err ++ " (" ++ bytesToText output ++ ")"
      ([Event.lockAcquire, Event.chatAction cid "typing", Event.runScript,
        Event.sendMessageAttempt cid message (sendOk 0), Event.lockRelease], sendOk 0)
  | ScriptResult.ok output =>
      let mime := detect output
      if hasPrefix mime "image" then
        if sendOk 0 then
          ([Event.lockAcquire, Event.chatAction cid "typing", Event.runScript,
            Event.chatAction cid "upload_photo", Event.sendPhotoAttempt cid true,
            Event.lockRelease], true)
        else
          let message := "Failed to send photo: " ++ desc 0
          ([Event.lockAcquire, Event.chatAction cid "typing", Event.runScript,
            Event.chatAction cid "upload_photo", Event.sendPhotoAttempt cid false,
            Event.sendMessageAttempt cid message (sendOk 1), Event.lockRelease], sendOk 1)
      else if hasPrefix mime "video" then
        if sendOk 0 then
          ([Event.lockAcquire, Event.chatAction cid "typing", Event.runScript,
            Event.chatAction cid "upload_video", Event.sendVideoAttempt cid true,
            Event.lockRelease], true)
        else
          let message := "Failed to send video: " ++ desc 0
          ([Event.lockAcquire, Event.chatAction cid "typing", Event.runScript,
            Event.chatAction cid "upload_video", Event.sendVideoAttempt cid false,
            Event.sendMessageAttempt cid message (sendOk 1), Event.lockRelease], sendOk 1)
      else
        ([Event.lockAcquire, Event.chatAction cid "typing", Event.runScript,
          Event.sendMessageAttempt cid (bytesToText output) (sendOk 0), Event.lockRelease],
         sendOk 0)

/-- Modelled from the spec: the content sniffer ("classify the captured
bytes by content signature (sniff, not filename)") is an external
collaborator — Go's net/http content detection — whose code is not part of
this repository; only the signatures the spec names (PNG, JPEG, MP4) are
modelled, everything else classified as plain text. -/
def detectContentType (bs : List Nat) : String :=
  if [0x89, 0x50, 0x4E, 0x47, 0x0D, 0x0A, 0x1A, 0x0A].isPrefixOf bs then "image/png"
  else if [0xFF, 0xD8, 0xFF].isPrefixOf bs then "image/jpeg"
  else if (bs.take 12).drop 4 = [0x66, 0x74, 0x79, 0x70, 0x6D, 0x70, 0x34, 0x32] then
    "video/mp4"
  else "text/plain; charset=utf-8"

/-- The three delivery branches of the worker's response path. -/
inductive Branch where
  | photo
  | video
  | text
  deriving DecidableEq

/-- First delivery attempt occurring in a worker trace, classifying which
delivery branch the worker took. -/
def primaryDelivery : List Event → Option Branch
  | [] => none
  | Event.sendPhotoAttempt _ _ :: _ => some Branch.photo
  | Event.sendVideoAttempt _ _ :: _ => some Branch.video
  | Event.sendMessageAttempt _ _ _ :: _ => some Branch.text
  | _ :: rest => primaryDelivery rest

/-- Inputs determining one worker run: the sniffer, the send oracle, the
failure descriptions, the script result and the request being served. -/
structure WorkerInput where
  detect : List Nat → String
  sendOk : Nat → Bool
  desc : Nat → String
  scriptResult : ScriptResult
  request : ExecuteRequest

/-- Event trace of one worker run. -/
def workerTrace (w : WorkerInput) : List Event :=
  (processExecuteRequest w.detect w.sendOk w.desc w.scriptResult w.request).1

/-- A trace is well-bracketed for the execute lock: it acquires the lock
first, releases it last, does neither anywhere in between, and the script
invocation happens while the lock is held. -/
def wellBracketed (tr : List Event) : Prop :=
  ∃ mid, tr = Event.lockAcquire :: (mid ++ [Event.lockRelease]) ∧
    Event.lockAcquire ∉ mid ∧ Event.lockRelease ∉ mid ∧ Event.runScript ∈ mid

/-- State of one worker thread: the events it has yet to perform and
whether it currently holds the execute lock. -/
structure WorkerState where
  remaining : List Event
  holding : Bool

/-- Interleaving semantics of `n` worker threads sharing the single
`executeLock` (a `sync.Mutex`): a thread may acquire only when no thread
holds the lock, may release only when it holds it, and performs any other
event freely. -/
inductive LockStep {n : Nat} : (Fin n → WorkerState) → (Fin n → WorkerState) → Prop
  | acquire (ws : Fin n → WorkerState) (i : Fin n) (rest : List Event) :
      (ws i).remaining = Event.lockAcquire :: rest →
      (∀ j, (ws j).holding = false) →
      LockStep ws (Function.update ws i ⟨rest, true⟩)
  | release (ws : Fin n → WorkerState) (i : Fin n) (rest : List Event) :
      (ws i).remaining = Event.lockRelease :: rest →
      (ws i).holding = true →
      LockStep ws (Function.update ws i ⟨rest, false⟩)
  | internal (ws : Fin n → WorkerState) (i : Fin n) (e : Event) (rest : List Event) :
      (ws i).remaining = e :: rest →
      e ≠ Event.lockAcquire → e ≠ Event.lockRelease →
      LockStep ws (Function.update ws i ⟨rest, (ws i).holding⟩)

/-- At most one thread holds the execute lock. -/
def AtMostOneHolder {n : Nat} (ws : Fin n → WorkerState) : Prop :=
  ∀ i j : Fin n, (ws i).holding = true → (ws j).holding = true → i = j

/-- Initial thread pool: each thread about to run `processExecuteRequest`
on its own inputs, none holding the lock. -/
def initWorkers {n : Nat} (inputs : Fin n → WorkerInput) : Fin n → WorkerState :=
  fun i => ⟨workerTrace (inputs i), false⟩

/-- State of the execution channel (source: `executeChannel = make(chan
ExecuteRequest, numQueue)`) together with its push/pop history: the
buffered elements, every request ever pushed, and every request ever
popped, in order. -/
structure ChanState where
  buf : List ExecuteRequest
  pushed : List ExecuteRequest
  popped : List ExecuteRequest

/-- Push is enabled (does not block the producer) iff the buffer has room. -/
def pushEnabled (cap : Nat) (s : ChanState) : Prop := s.buf.length < cap

/-- Semantics of a Go buffered channel of the given capacity, as the spec's
bounded FIFO contract: a push appends when the buffer has room (and blocks
otherwise — no step exists), a pop removes the oldest element. -/
inductive ChanStep (cap : Nat) : ChanState → ChanState → Prop
  | push (s : ChanState) (r : ExecuteRequest) :
      s.buf.length < cap →
      ChanStep cap s ⟨s.buf ++ [r], s.pushed ++ [r], s.popped⟩
  | pop (s : ChanState) (r : ExecuteRequest) (rest : List ExecuteRequest) :
      s.buf = r :: rest →
      ChanStep cap s ⟨rest, s.pushed, s.popped ++ [r]⟩

/-- The empty channel at startup. -/
def chanInit : ChanState := ⟨[], [], []⟩

/-- Channel states reachable from startup under the capacity configured in
the source (`numQueue`). -/
def ChanReachable (s : ChanState) : Prop :=
  Relation.ReflTransGen (ChanStep numQueue) chanInit s

/-- Concrete allow-list used by witnesses. -/
def exAllowed : List String := ["alice"]

/-- Session pool the program builds for `exAllowed`. -/
def exPool : List (String × Session) := initSessions exAllowed

/-- Concrete `/showcode` update from the allowed sender. -/
def exShowcodeUpdate : Update := ⟨⟨⟨some "alice", "Alice"⟩, some "/showcode", ⟨99⟩⟩⟩

/-- Concrete `/execute` update from the allowed sender. -/
def exExecuteUpdate : Update := ⟨⟨⟨some "alice", "Alice"⟩, some "/execute", ⟨99⟩⟩⟩

/-- Concrete non-command update from the allowed sender. -/
def exFooUpdate : Update := ⟨⟨⟨some "alice", "Alice"⟩, some "foo", ⟨99⟩⟩⟩

/-- Concrete non-text update from the allowed sender. -/
def exNoTextUpdate : Update := ⟨⟨⟨some "alice", "Alice"⟩, none, ⟨99⟩⟩⟩

/-- PNG file signature bytes. -/
def pngSignature : List Nat := [0x89, 0x50, 0x4E, 0x47, 0x0D, 0x0A, 0x1A, 0x0A]

/-- Concrete worker input: script succeeded and produced PNG bytes, every
send succeeds. -/
def cWorkerInput : WorkerInput :=
  ⟨detectContentType, fun _ => true, fun _ => "", ScriptResult.ok pngSignature,
   ⟨99, stdMessageOptions⟩⟩

/-- One-thread pool at its initial state for `cWorkerInput`. -/
def cInitWorkers : Fin 1 → WorkerState := initWorkers (fun _ => cWorkerInput)

/-- Recognizer for text-send attempts in a worker trace. -/
def isSendMessageEvent : Event → Bool
  | Event.sendMessageAttempt _ _ _ => true
  | _ => false

/-- Recognizer for photo-send attempts in a worker trace. -/
def isSendPhotoEvent : Event → Bool
  | Event.sendPhotoAttempt _ _ => true
  | _ => false

/-- Recognizer for video-send attempts in a worker trace. -/
def isSendVideoEvent : Event → Bool
  | Event.sendVideoAttempt _ _ => true
  | _ => false

/-- A one-element channel state used as witness: one pushed request still
buffered, nothing popped. -/
def exChanState : ChanState :=
  ⟨[⟨99, stdMessageOptions⟩], [⟨99, stdMessageOptions⟩], []⟩

/-! ## General helper lemmas -/

/-- Two prefixes of the same character list are comparable. -/
theorem isPrefixOf_comparable (s p q : List Char) (hp : p <+: s) (hq : q <+: s) :
    p <+: q ∨ q <+: p := by
  induction s generalizing p q with
  | nil =>
      rw [List.prefix_nil] at hp hq
      subst hp; subst hq
      exact Or.inl (by simp)
  | cons c cs ih =>
      cases p with
      | nil => exact Or.inl (by simp)
      | cons a as =>
        cases q with
        | nil => exact Or.inr (by simp)
        | cons b bs =>
          rw [List.cons_prefix_cons] at hp hq
          obtain ⟨rfl, has⟩ := hp
          obtain ⟨rfl, hbs⟩ := hq
          rcases ih as bs has hbs with h | h
          · exact Or.inl (List.cons_prefix_cons.mpr ⟨rfl, h⟩)
          · exact Or.inr (List.cons_prefix_cons.mpr ⟨rfl, h⟩)

/-- A string starting with one of two incomparable command words does not
start with the other. -/
theorem hasPrefix_excludes (s p q : String)
    (h1 : ¬ p.data <+: q.data) (h2 : ¬ q.data <+: p.data)
    (h : hasPrefix s p = true) : hasPrefix s q = false := by
  unfold hasPrefix at h ⊢
  simp at h
  cases hqb : q.data.isPrefixOf s.data with
  | false => rfl
  | true =>
      have hq : q.data <+: s.data := by simpa using hqb
      rcases isPrefixOf_comparable s.data p.data q.data h hq with hc | hc
      · exact absurd hc h1
      · exact absurd hc h2

/-- A non-empty string has positive length. -/
theorem length_pos_of_ne_empty (s : String) (h : s ≠ "") : 0 < s.length := by
  cases s with
  | mk data =>
    cases data with
    | nil => exact absurd rfl h
    | cons c cs => simp [String.length]

/-- Characterization of the dispatcher once the sender has passed the
allow-list check and the session lookup: the outcome is determined by the
prefix switch on the effective text. -/
theorem processUpdate_eq_message (allowed : List String) (pool : List (String × Session))
    (scriptFile : Except String String) (update : Update) (uid : String) (session : Session)
    (hu : update.message.fromUser.username = some uid)
    (ha : isAvailableID allowed uid = true)
    (hs : lookupSession pool uid = some session) :
    processUpdate allowed pool scriptFile update =
      (let txt := effectiveText update
       let message :=
         if hasPrefix txt commandStart then messageDefault
         else if hasPrefix txt commandExecute then ""
         else if hasPrefix txt commandShowCode then readCode scriptFile
         else if txt.length > 0 then txt ++ ": " ++ messageUnknownCommand
         else messageUnknownCommand
       if message.length > 0 then DispatchOutcome.replyWith message stdMessageOptions
       else DispatchOutcome.enqueue ⟨update.message.chat.id, stdMessageOptions⟩) := by
  unfold processUpdate
  rw [hu]
  obtain ⟨u, st⟩ := session
  cases st
  simp only [ha, if_true, hs]

/-- Characterization of the legacy dispatcher under the same hypotheses. -/
theorem processUpdateLegacy_eq_message (allowed : List String) (pool : List (String × Session))
    (scriptFile : Except String String) (update : Update) (uid : String) (session : Session)
    (hu : update.message.fromUser.username = some uid)
    (ha : isAvailableID allowed uid = true)
    (hs : lookupSession pool uid = some session) :
    processUpdateLegacy allowed pool scriptFile update =
      (let txt := effectiveText update
       let message :=
         if hasPrefix txt commandStart then messageDefault
         else if hasPrefix txt commandExecute then ""
         else if hasPrefix txt commandShowCode then readCode scriptFile
         else txt ++ ": " ++ messageUnknownCommand
       if message.length > 0 then DispatchOutcome.replyWith message stdMessageOptions
       else DispatchOutcome.enqueue ⟨update.message.chat.id, stdMessageOptions⟩) := by
  unfold processUpdateLegacy
  rw [hu]
  obtain ⟨u, st⟩ := session
  cases st
  simp only [ha, if_true, hs]

/-- Every worker run is well-bracketed for the execute lock: acquired
first, released last (the source releases by `defer`), script run while
held. -/
theorem processExecuteRequest_wellBracketed (detect : List Nat → String) (sendOk : Nat → Bool)
    (desc : Nat → String) (res : ScriptResult) (req : ExecuteRequest) :
    wellBracketed (processExecuteRequest detect sendOk desc res req).1 := by
  unfold wellBracketed processExecuteRequest
  cases res with
  | error err output =>
      refine ⟨[Event.chatAction req.chatID "typing", Event.runScript,
               Event.sendMessageAttempt req.chatID
                 ("Error running script: " ++ err ++ " (" ++ bytesToText output ++ ")")
                 (sendOk 0)], ?_, ?_, ?_, ?_⟩ <;> simp
  | ok output =>
      cases h1 : hasPrefix (detect output) "image" with
      | true =>
          cases hok : sendOk 0 with
          | true =>
              refine ⟨[Event.chatAction req.chatID "typing", Event.runScript,
                       Event.chatAction req.chatID "upload_photo",
                       Event.sendPhotoAttempt req.chatID true], ?_, ?_, ?_, ?_⟩ <;>
                simp [h1, hok]
          | false =>
              refine ⟨[Event.chatAction req.chatID "typing", Event.runScript,
                       Event.chatAction req.chatID "upload_photo",
                       Event.sendPhotoAttempt req.chatID false,
                       Event.sendMessageAttempt req.chatID
                         ("Failed to send photo: " ++ desc 0) (sendOk 1)], ?_, ?_, ?_, ?_⟩ <;>
                simp [h1, hok]
      | false =>
          cases h2 : hasPrefix (detect output) "video" with
          | true =>
              cases hok : sendOk 0 with
              | true =>
                  refine ⟨[Event.chatAction req.chatID "typing", Event.runScript,
                           Event.chatAction req.chatID "upload_video",
                           Event.sendVideoAttempt req.chatID true], ?_, ?_, ?_, ?_⟩ <;>
                    simp [h1, h2, hok]
              | false =>
                  refine ⟨[Event.chatAction req.chatID "typing", Event.runScript,
                           Event.chatAction req.chatID "upload_video",
                           Event.sendVideoAttempt req.chatID false,
                           Event.sendMessageAttempt req.chatID
                             ("Failed to send video: " ++ desc 0) (sendOk 1)], ?_, ?_, ?_, ?_⟩ <;>
                    simp [h1, h2, hok]
          | false =>
              refine ⟨[Event.chatAction req.chatID "typing", Event.runScript,
                       Event.sendMessageAttempt req.chatID (bytesToText output)
                         (sendOk 0)], ?_, ?_, ?_, ?_⟩ <;>
                simp [h1, h2]

/-- One interleaving step preserves mutual exclusion on the execute lock. -/
theorem lockStep_atMostOne {n : Nat} (ws ws2 : Fin n → WorkerState)
    (h : LockStep ws ws2) (inv : AtMostOneHolder ws) : AtMostOneHolder ws2 := by
  cases h with
  | acquire i rest hrem hall =>
      intro a b ha hb
      by_cases hai : a = i
      · by_cases hbi : b = i
        · rw [hai, hbi]
        · exfalso
          rw [Function.update_apply, if_neg hbi] at hb
          rw [hall b] at hb
          exact Bool.false_ne_true hb
      · exfalso
        rw [Function.update_apply, if_neg hai] at ha
        rw [hall a] at ha
        exact Bool.false_ne_true ha
  | release i rest hrem hhold =>
      intro a b ha hb
      by_cases hai : a = i
      · subst hai
        rw [Function.update_apply, if_pos rfl] at ha
        exact absurd ha (by simp)
      · by_cases hbi : b = i
        · subst hbi
          rw [Function.update_apply, if_pos rfl] at hb
          exact absurd hb (by simp)
        · rw [Function.update_apply, if_neg hai] at ha
          rw [Function.update_apply, if_neg hbi] at hb
          exact inv a b ha hb
  | internal i e rest hrem hna hnr =>
      intro a b ha hb
      have ha2 : (ws a).holding = true := by
        by_cases hai : a = i
        · subst hai
          rw [Function.update_apply, if_pos rfl] at ha
          exact ha
        · rw [Function.update_apply, if_neg hai] at ha
          exact ha
      have hb2 : (ws b).holding = true := by
        by_cases hbi : b = i
        · subst hbi
          rw [Function.update_apply, if_pos rfl] at hb
          exact hb
        · rw [Function.update_apply, if_neg hbi] at hb
          exact hb
      exact inv a b ha2 hb2

/-- From a holder-free initial state, every reachable interleaving state
has at most one lock holder. -/
theorem lockReachable_atMostOne {n : Nat} (start ws : Fin n → WorkerState)
    (hinit : ∀ i, (start i).holding = false)
    (h : Relation.ReflTransGen LockStep start ws) : AtMostOneHolder ws := by
  induction h with
  | refl =>
      intro a b ha hb
      rw [hinit a] at ha
      exact absurd ha Bool.false_ne_true
  | tail hab hbc ih => exact lockStep_atMostOne _ _ hbc ih

/-- Inductive invariant of the execution channel: the buffer never exceeds
the configured capacity and the push history is exactly the pop history
followed by the current buffer (FIFO delivery in arrival order). -/
theorem chanReachable_invariant (s : ChanState) (h : ChanReachable s) :
    s.buf.length ≤ numQueue ∧ s.pushed = s.popped ++ s.buf := by
  unfold ChanReachable at h
  induction h with
  | refl => exact ⟨by simp [chanInit], by simp [chanInit]⟩
  | tail hab hbc ih =>
      cases hbc with
      | push r hlen =>
          refine ⟨by simp; omega, ?_⟩
          simp only
          rw [ih.2, List.append_assoc]
      | pop r rest hbuf =>
          have h1 := ih.1
          have h2 := ih.2
          rw [hbuf] at h1 h2
          refine ⟨?_, ?_⟩
          · simp only
            simp at h1
            omega
          · simp only
            rw [h2, List.append_assoc]
            simp

/-- Lookup after a Go-style map insert. -/
theorem lookupSession_mapInsert (m : List (String × Session)) (k k2 : String) (v : Session) :
    lookupSession (mapInsert m k v) k2 = if k = k2 then some v else lookupSession m k2 := by
  induction m with
  | nil => simp [mapInsert, lookupSession]
  | cons p rest ih =>
      obtain ⟨k3, v3⟩ := p
      by_cases h1 : k3 = k
      · subst h1
        by_cases h2 : k3 = k2 <;> simp [mapInsert, lookupSession, h2]
      · by_cases h2 : k3 = k2
        · subst h2
          simp [mapInsert, h1, lookupSession]
          rw [if_neg (fun he => h1 he.symm)]
        · simp [mapInsert, h1, lookupSession, h2, ih]

/-- Lookup in the session map built by folding inserts over the allow-list. -/
theorem lookupSession_foldl (allowed : List String) (id : String) :
    ∀ m, lookupSession
        (List.foldl (fun m v => mapInsert m v ⟨v, Status.waiting⟩) m allowed) id =
      (if isAvailableID allowed id = true then some ⟨id, Status.waiting⟩
       else lookupSession m id) := by
  induction allowed with
  | nil => intro m; simp [isAvailableID]
  | cons v rest ih =>
      intro m
      simp only [List.foldl_cons]
      rw [ih]
      by_cases hv : isAvailableID rest id = true
      · simp [hv, isAvailableID]
      · by_cases hvid : v = id
        · subst hvid
          simp [hv, isAvailableID, lookupSession_mapInsert]
        · simp [hv, isAvailableID, hvid, lookupSession_mapInsert]

/-! ## Claim theorems -/

/-- C9: immediately after initialization the session registry contains
exactly the allow-listed identities, each mapped to a session for that
identity in state Waiting, and nothing else: lookup succeeds with
`⟨id, waiting⟩` exactly when the allow-list scan accepts `id`, and fails
otherwise. Since the program never inserts or deletes sessions after
`init`, registry membership equals allow-list membership. -/
theorem session_registry_matches_allowlist (allowed : List String) (id : String) :
    lookupSession (initSessions allowed) id =
      (if isAvailableID allowed id = true then some ⟨id, Status.waiting⟩ else none) := by
  unfold initSessions
  rw [lookupSession_foldl allowed id []]
  by_cases h : isAvailableID allowed id = true <;> simp [h, lookupSession]

/-- C7: on successful script invocation the worker takes exactly one
delivery branch, selected by the sniffed MIME type of the captured bytes:
a type starting with "image" selects the photo-send branch, a type
starting with "video" the video-send branch, and anything else the
text-send branch. -/
theorem worker_delivery_branch_selection (detect : List Nat → String) (sendOk : Nat → Bool)
    (desc : Nat → String) (output : List Nat) (request : ExecuteRequest) :
    primaryDelivery
        (processExecuteRequest detect sendOk desc (ScriptResult.ok output) request).1 =
      some (if hasPrefix (detect output) "image" then Branch.photo
            else if hasPrefix (detect output) "video" then Branch.video
            else Branch.text) := by
  unfold processExecuteRequest
  cases h1 : hasPrefix (detect output) "image" with
  | true => cases hok : sendOk 0 <;> simp [h1, hok, primaryDelivery]
  | false =>
      cases h2 : hasPrefix (detect output) "video" with
      | true => cases hok : sendOk 0 <;> simp [h1, h2, hok, primaryDelivery]
      | false => simp [h1, h2, primaryDelivery]

/-- C8: on script invocation failure the worker attempts exactly one text
send, whose message is exactly "Error running script: <error> (<captured
output as text>)", and attempts no photo send and no video send; the
single attempt is made whether or not it succeeds (no retry). -/
theorem worker_script_failure_reply (detect : List Nat → String) (sendOk : Nat → Bool)
    (desc : Nat → String) (err : String) (output : List Nat) (request : ExecuteRequest) :
    Event.sendMessageAttempt request.chatID
        ("Error running script: " ++ err ++ " (" ++ bytesToText output ++ ")") (sendOk 0)
      ∈ (processExecuteRequest detect sendOk desc (ScriptResult.error err output) request).1 ∧
    List.countP isSendMessageEvent
        (processExecuteRequest detect sendOk desc (ScriptResult.error err output) request).1
      = 1 ∧
    List.countP isSendPhotoEvent
        (processExecuteRequest detect sendOk desc (ScriptResult.error err output) request).1
      = 0 ∧
    List.countP isSendVideoEvent
        (processExecuteRequest detect sendOk desc (ScriptResult.error err output) request).1
      = 0 := by
  unfold processExecuteRequest
  refine ⟨?_, ?_, ?_, ?_⟩ <;>
    simp [List.countP_cons, isSendMessageEvent, isSendPhotoEvent, isSendVideoEvent]

/-- C5: for every update from an allowed identity whose session is present
and whose text begins with "/execute", dispatch yields Enqueue (never
ReplyWith) of an ExecuteRequest carrying the sender's originating chat id
and the reply-options bundle that re-attaches the standard command
keyboard. -/
theorem execute_dispatch_enqueues (allowed : List String) (pool : List (String × Session))
    (scriptFile : Except String String) (update : Update) (uid : String) (session : Session)
    (hu : update.message.fromUser.username = some uid)
    (ha : isAvailableID allowed uid = true)
    (hs : lookupSession pool uid = some session)
    (hp : hasPrefix (effectiveText update) commandExecute = true) :
    processUpdate allowed pool scriptFile update =
      DispatchOutcome.enqueue ⟨update.message.chat.id, stdMessageOptions⟩ ∧
    stdMessageOptions.replyMarkup = ⟨allKeyboards, true⟩ := by
  have hns : hasPrefix (effectiveText update) commandStart = false :=
    hasPrefix_excludes _ _ _ (by decide) (by decide) hp
  refine ⟨?_, rfl⟩
  rw [processUpdate_eq_message allowed pool scriptFile update uid session hu ha hs]
  simp [hns, hp]

/-- C6: for every update from an allowed identity whose session is present
and whose text matches none of the prefixes "/start", "/execute" and
"/showcode", dispatch yields ReplyWith("<text>: Unknown command.") when the
text is non-empty and ReplyWith("Unknown command.") when the text is empty
(e.g. a non-text message). -/
theorem unknown_command_reply (allowed : List String) (pool : List (String × Session))
    (scriptFile : Except String String) (update : Update) (uid : String) (session : Session)
    (hu : update.message.fromUser.username = some uid)
    (ha : isAvailableID allowed uid = true)
    (hs : lookupSession pool uid = some session)
    (h1 : hasPrefix (effectiveText update) commandStart = false)
    (h2 : hasPrefix (effectiveText update) commandExecute = false)
    (h3 : hasPrefix (effectiveText update) commandShowCode = false) :
    processUpdate allowed pool scriptFile update =
      DispatchOutcome.replyWith
        (if effectiveText update = "" then messageUnknownCommand
         else effectiveText update ++ ": " ++ messageUnknownCommand)
        stdMessageOptions := by
  rw [processUpdate_eq_message allowed pool scriptFile update uid session hu ha hs]
  by_cases he : effectiveText update = ""
  · have d1 : hasPrefix "" commandStart = false := by decide
    have d2 : hasPrefix "" commandExecute = false := by decide
    have d3 : hasPrefix "" commandShowCode = false := by decide
    have hl : 0 < messageUnknownCommand.length := by decide
    simp [he, d1, d2, d3, hl]
  · have hlen : 0 < (effectiveText update).length := length_pos_of_ne_empty _ he
    have hmsg : 0 < (effectiveText update ++ ": " ++ messageUnknownCommand).length := by
      rw [String.length_append, String.length_append]
      have h16 : messageUnknownCommand.length = 16 := by decide
      omega
    simp [h1, h2, h3, he, hlen, hmsg]

/-- C2: when the configured script file is readable but empty, dispatch of
"/showcode" from an allowed identity with session present yields Enqueue
of an ExecuteRequest for the sender's chat (not ReplyWith), because the
dispatcher encodes the enqueue outcome as an empty reply message and
branches only on the message's length. -/
theorem showcode_empty_file_enqueues (allowed : List String) (pool : List (String × Session))
    (update : Update) (uid : String) (session : Session)
    (hu : update.message.fromUser.username = some uid)
    (ha : isAvailableID allowed uid = true)
    (hs : lookupSession pool uid = some session)
    (hp : hasPrefix (effectiveText update) commandShowCode = true) :
    processUpdate allowed pool (Except.ok "") update =
      DispatchOutcome.enqueue ⟨update.message.chat.id, stdMessageOptions⟩ := by
  have hns : hasPrefix (effectiveText update) commandStart = false :=
    hasPrefix_excludes _ _ _ (by decide) (by decide) hp
  have hne : hasPrefix (effectiveText update) commandExecute = false :=
    hasPrefix_excludes _ _ _ (by decide) (by decide) hp
  rw [processUpdate_eq_message allowed pool (Except.ok "") update uid session hu ha hs]
  simp [hns, hne, hp, readCode]

/-- C1 (amended): for every update from an allowed identity whose session
is present and whose text begins with "/showcode", dispatch yields
ReplyWith of exactly the script file's contents when the file is readable
and its contents are non-empty, ReplyWith("Error: <cause>") when the file
cannot be read, and — the one exception the code forces — Enqueue of an
ExecutionRequest when the file is readable but empty, since the dispatcher
branches only on the reply message's length. -/
theorem showcode_dispatch_amended (allowed : List String) (pool : List (String × Session))
    (scriptFile : Except String String) (update : Update) (uid : String) (session : Session)
    (hu : update.message.fromUser.username = some uid)
    (ha : isAvailableID allowed uid = true)
    (hs : lookupSession pool uid = some session)
    (hp : hasPrefix (effectiveText update) commandShowCode = true) :
    (∀ contents, scriptFile = Except.ok contents → contents ≠ "" →
        processUpdate allowed pool scriptFile update =
          DispatchOutcome.replyWith contents stdMessageOptions) ∧
    (∀ cause, scriptFile = Except.error cause →
        processUpdate allowed pool scriptFile update =
          DispatchOutcome.replyWith ("Error: " ++ cause) stdMessageOptions) ∧
    (scriptFile = Except.ok "" →
        processUpdate allowed pool scriptFile update =
          DispatchOutcome.enqueue ⟨update.message.chat.id, stdMessageOptions⟩) := by
  have hns : hasPrefix (effectiveText update) commandStart = false :=
    hasPrefix_excludes _ _ _ (by decide) (by decide) hp
  have hne : hasPrefix (effectiveText update) commandExecute = false :=
    hasPrefix_excludes _ _ _ (by decide) (by decide) hp
  refine ⟨?_, ?_, ?_⟩
  · intro contents hok hnemp
    subst hok
    have hlen : 0 < contents.length := length_pos_of_ne_empty _ hnemp
    rw [processUpdate_eq_message allowed pool (Except.ok contents) update uid session hu ha hs]
    simp [hns, hne, hp, readCode, hlen]
  · intro cause herr
    subst herr
    have hlen : 0 < ("Error: " ++ cause).length := by
      rw [String.length_append]
      have h7 : ("Error: " : String).length = 7 := by decide
      omega
    rw [processUpdate_eq_message allowed pool (Except.error cause) update uid session hu ha hs]
    simp [hns, hne, hp, readCode, hlen]
    intro h0
    exact absurd h0 (by decide)
  · intro hok
    subst hok
    rw [processUpdate_eq_message allowed pool (Except.ok "") update uid session hu ha hs]
    simp [hns, hne, hp, readCode]

/-- C1 (counterexample): with the allow-listed sender "alice" sending
"/showcode" and a readable but empty script file, dispatch yields Enqueue,
not the ReplyWith(file contents) the claim requires for every readable
file. -/
theorem showcode_readable_counterexample :
    processUpdate exAllowed exPool (Except.ok "") exShowcodeUpdate =
      DispatchOutcome.enqueue ⟨99, stdMessageOptions⟩ ∧
    processUpdate exAllowed exPool (Except.ok "") exShowcodeUpdate ≠
      DispatchOutcome.replyWith "" stdMessageOptions := by
  refine ⟨?_, ?_⟩ <;> decide

/-- C10: the legacy copy of the dispatcher (src/main.go) and the corrected
copy (the authoritative one) are behaviourally equivalent on every update
whose effective text is non-empty, producing the same dispatch outcome and
message; on empty text (e.g. a non-text message) from an allowed sender
with session present, the corrected copy replies "Unknown command." while
the legacy copy replies ": Unknown command.". -/
theorem legacy_dispatch_equivalence (allowed : List String) (pool : List (String × Session))
    (scriptFile : Except String String) (update : Update) :
    (effectiveText update ≠ "" →
      processUpdateLegacy allowed pool scriptFile update =
        processUpdate allowed pool scriptFile update) ∧
    (∀ uid session, update.message.fromUser.username = some uid →
      isAvailableID allowed uid = true →
      lookupSession pool uid = some session →
      effectiveText update = "" →
      processUpdate allowed pool scriptFile update =
        DispatchOutcome.replyWith messageUnknownCommand stdMessageOptions ∧
      processUpdateLegacy allowed pool scriptFile update =
        DispatchOutcome.replyWith (": " ++ messageUnknownCommand) stdMessageOptions) := by
  constructor
  · intro hne
    have hlen : 0 < (effectiveText update).length := length_pos_of_ne_empty _ hne
    unfold processUpdate processUpdateLegacy
    cases hu : update.message.fromUser.username with
    | none => rfl
    | some uid =>
        cases ha : isAvailableID allowed uid with
        | false => simp [ha]
        | true =>
            cases hs : lookupSession pool uid with
            | none => simp [ha, hs]
            | some session =>
                obtain ⟨u, st⟩ := session
                cases st
                simp only [ha, if_true, hs]
                simp [hlen]
  · intro uid session hu ha hs he
    have d1 : hasPrefix "" commandStart = false := by decide
    have d2 : hasPrefix "" commandExecute = false := by decide
    have d3 : hasPrefix "" commandShowCode = false := by decide
    have hl : 0 < messageUnknownCommand.length := by decide
    have hl2 : 0 < (": " ++ messageUnknownCommand).length := by decide
    constructor
    · rw [processUpdate_eq_message allowed pool scriptFile update uid session hu ha hs]
      simp [he, d1, d2, d3, hl]
    · rw [processUpdateLegacy_eq_message allowed pool scriptFile update uid session hu ha hs]
      simp [he, d1, d2, d3, hl2]
      intro h0
      exact absurd h0 (by decide)

/-- C3: single-flight execution. Every worker run's event trace acquires
the execute lock as its very first action, releases it as its very last
(the source releases via `defer`, so release happens on every exit path,
including script failure and every send-failure branch), touches the lock
nowhere in between, and runs the script strictly inside the critical
section; and in any interleaving of worker threads over the shared lock,
every state reachable from the holder-free start has at most one lock
holder, so at most one execution request is acted upon at any instant. -/
theorem executeLock_single_flight {n : Nat} (inputs : Fin n → WorkerInput)
    (ws : Fin n → WorkerState)
    (hreach : Relation.ReflTransGen LockStep (initWorkers inputs) ws) :
    (∀ i, wellBracketed (workerTrace (inputs i))) ∧ AtMostOneHolder ws := by
  constructor
  · intro i
    exact processExecuteRequest_wellBracketed (inputs i).detect (inputs i).sendOk
      (inputs i).desc (inputs i).scriptResult (inputs i).request
  · exact lockReachable_atMostOne (initWorkers inputs) ws (fun i => rfl) hreach

/-- C4: the execution channel is a bounded FIFO of capacity `numQueue = 4`:
in every reachable channel state the buffer holds at most 4 outstanding
requests; when 4 are outstanding a further push is not enabled (the
producing update-handling path blocks); popping one request from a full
buffer re-enables the push; and the popped sequence followed by the buffer
equals the pushed sequence, so requests are delivered to the worker in
strict arrival order. -/
theorem executeChannel_bounded_fifo (s : ChanState) (h : ChanReachable s) :
    s.buf.length ≤ numQueue ∧
    s.pushed = s.popped ++ s.buf ∧
    (s.buf.length = numQueue → ¬ pushEnabled numQueue s) ∧
    (∀ r rest, s.buf = r :: rest →
      pushEnabled numQueue ⟨rest, s.pushed, s.popped ++ [r]⟩) := by
  obtain ⟨h1, h2⟩ := chanReachable_invariant s h
  refine ⟨h1, h2, ?_, ?_⟩
  · intro hfull
    unfold pushEnabled
    omega
  · intro r rest hbuf
    unfold pushEnabled
    rw [hbuf] at h1
    simp at h1 ⊢
    unfold numQueue at h1 ⊢
    omega

/-! ## Witnesses -/

/-- Witness for C1 (amended) at concrete inputs: a readable non-empty file
is echoed verbatim, an unreadable file produces the error reply. -/
theorem showcode_dispatch_amended_witness :
    processUpdate exAllowed exPool (Except.ok "print(1)") exShowcodeUpdate =
      DispatchOutcome.replyWith "print(1)" stdMessageOptions ∧
    processUpdate exAllowed exPool (Except.error "no such file") exShowcodeUpdate =
      DispatchOutcome.replyWith ("Error: " ++ "no such file") stdMessageOptions := by
  constructor
  · exact (showcode_dispatch_amended exAllowed exPool (Except.ok "print(1)") exShowcodeUpdate
      "alice" ⟨"alice", Status.waiting⟩ rfl (by decide) (by decide) (by decide)).1
      "print(1)" rfl (by decide)
  · exact (showcode_dispatch_amended exAllowed exPool (Except.error "no such file")
      exShowcodeUpdate "alice" ⟨"alice", Status.waiting⟩ rfl (by decide) (by decide)
      (by decide)).2.1 "no such file" rfl

/-- Witness for C2 at concrete inputs: the empty readable file makes
"/showcode" enqueue an execution request for chat 99. -/
theorem showcode_empty_file_enqueues_witness :
    processUpdate exAllowed exPool (Except.ok "") exShowcodeUpdate =
      DispatchOutcome.enqueue ⟨99, stdMessageOptions⟩ := by
  exact showcode_empty_file_enqueues exAllowed exPool exShowcodeUpdate "alice"
    ⟨"alice", Status.waiting⟩ rfl (by decide) (by decide) (by decide)

/-- Witness for C3 at a concrete one-thread pool running the worker on PNG
output: the trace is well-bracketed and the initial state has at most one
holder. -/
theorem executeLock_single_flight_witness :
    wellBracketed (workerTrace cWorkerInput) ∧ AtMostOneHolder cInitWorkers := by
  have h := executeLock_single_flight (fun _ : Fin 1 => cWorkerInput) cInitWorkers
    Relation.ReflTransGen.refl
  exact ⟨h.1 0, h.2⟩

/-- Witness for C4 at the concrete state reached by pushing one request
into the empty channel. -/
theorem executeChannel_bounded_fifo_witness :
    exChanState.buf.length ≤ numQueue ∧
    exChanState.pushed = exChanState.popped ++ exChanState.buf := by
  have hstep : ChanStep numQueue chanInit exChanState :=
    ChanStep.push chanInit ⟨99, stdMessageOptions⟩ (by decide)
  have h := executeChannel_bounded_fifo exChanState (Relation.ReflTransGen.single hstep)
  exact ⟨h.1, h.2.1⟩

/-- Witness for C5 at concrete inputs: "/execute" from the allowed sender
enqueues a request for chat 99 with the standard keyboard options. -/
theorem execute_dispatch_enqueues_witness :
    processUpdate exAllowed exPool (Except.ok "code") exExecuteUpdate =
      DispatchOutcome.enqueue ⟨99, stdMessageOptions⟩ ∧
    stdMessageOptions.replyMarkup = ⟨allKeyboards, true⟩ := by
  exact execute_dispatch_enqueues exAllowed exPool (Except.ok "code") exExecuteUpdate
    "alice" ⟨"alice", Status.waiting⟩ rfl (by decide) (by decide) (by decide)

/-- Witness for C6 at concrete inputs: the non-command text "foo" is
answered with "foo: Unknown command.". -/
theorem unknown_command_reply_witness :
    processUpdate exAllowed exPool (Except.ok "code") exFooUpdate =
      DispatchOutcome.replyWith ("foo: " ++ messageUnknownCommand) stdMessageOptions := by
  have h := unknown_command_reply exAllowed exPool (Except.ok "code") exFooUpdate "alice"
    ⟨"alice", Status.waiting⟩ rfl (by decide) (by decide) (by decide) (by decide) (by decide)
  exact h.trans (by decide)

/-- Witness for C10 at concrete inputs: legacy and corrected dispatch agree
on the non-empty text "foo" and differ exactly as stated on a text-less
update. -/
theorem legacy_dispatch_equivalence_witness :
    processUpdateLegacy exAllowed exPool (Except.ok "code") exFooUpdate =
      processUpdate exAllowed exPool (Except.ok "code") exFooUpdate ∧
    processUpdate exAllowed exPool (Except.ok "code") exNoTextUpdate =
      DispatchOutcome.replyWith messageUnknownCommand stdMessageOptions ∧
    processUpdateLegacy exAllowed exPool (Except.ok "code") exNoTextUpdate =
      DispatchOutcome.replyWith (": " ++ messageUnknownCommand) stdMessageOptions := by
  refine ⟨(legacy_dispatch_equivalence exAllowed exPool (Except.ok "code") exFooUpdate).1
    (by decide), ?_, ?_⟩
  · exact ((legacy_dispatch_equivalence exAllowed exPool (Except.ok "code") exNoTextUpdate).2
      "alice" ⟨"alice", Status.waiting⟩ rfl (by decide) (by decide) (by decide)).1
  · exact ((legacy_dispatch_equivalence exAllowed exPool (Except.ok "code") exNoTextUpdate).2
      "alice" ⟨"alice", Status.waiting⟩ rfl (by decide) (by decide) (by decide)).2

/-- Concrete content-signature checks: the PNG and JPEG signatures sniff
to an image type, the MP4 signature to a video type, and plain bytes to
neither, driving the photo, video and text branches respectively. -/
theorem detectContentType_signatures :
    hasPrefix (detectContentType pngSignature) "image" = true ∧
    hasPrefix (detectContentType [0xFF, 0xD8, 0xFF, 0xE0]) "image" = true ∧
    hasPrefix (detectContentType
      [0x00, 0x00, 0x00, 0x18, 0x66, 0x74, 0x79, 0x70, 0x6D, 0x70, 0x34, 0x32]) "video" = true ∧
    hasPrefix (detectContentType [0x68, 0x69]) "image" = false ∧
    hasPrefix (detectContentType [0x68, 0x69]) "video" = false := by
  refine ⟨?_, ?_, ?_, ?_, ?_⟩ <;> decide
